import Mathlib

/-!
Shallow embedding of `src/ntimporters/monday/importer.py` (the Monday →
Nozbe importer) and proofs about its import pipeline.

Modelling conventions:
* Python values reaching the importer through the loosely-typed source
  records are modelled by `Val` (strings, numbers as rationals, booleans,
  and `None`); missing dictionary keys read through `.get` are `Val.vnone`.
* The external collaborators (`ntimporters.utils` helpers, the Monday and
  Nozbe API clients, `dateutil.parser.isoparse`) are not part of `src/`;
  they are modelled from the spec, returning data drawn from a `World`
  record and response queues held in the pipeline state `St`.
* Every outbound call is recorded in an event trace so that statements
  about call ordering ("before any creation call", "no network calls")
  can be made.
* Raised Python exceptions are modelled by `PyErr`; `run_import` catches
  only `ImportException` / `OpenApiException` (`PyErr.importException`,
  `PyErr.openApiError`), any other raised error escapes the entry point.
-/

namespace MondayImporter

/-- Dynamic Python value as seen by the importer: `None`, a string, a
number (modelled as a rational) or a boolean. -/
inductive Val : Type where
  | vnone : Val
  | vstr : String → Val
  | vnum : Rat → Val
  | vbool : Bool → Val
  deriving DecidableEq, Repr

/-- Python truthiness of a `Val`: `None`, `""`, `0` and `False` are falsy. -/
def truthy : Val → Bool
  | Val.vnone => false
  | Val.vstr s => !(s = "")
  | Val.vnum q => !(q = 0)
  | Val.vbool b => b

/-- Python `str()` applied to a `Val`.  `str(None) = "None"` is the case
the importer actually exercises; the numeric rendering is schematic. -/
def pyStr : Val → String
  | Val.vnone => "None"
  | Val.vstr s => s
  | Val.vnum q => toString q
  | Val.vbool b => if b then "True" else "False"

/-- Python `a or b`: returns `a` when `a` is truthy, else `b`. -/
def pyOr (a b : Val) : Val :=
  if truthy a then a else b

/-- Monday board record; fields are the dictionary keys the importer reads
via `.get`, with `Val.vnone` standing for a missing key. -/
structure MondayProject where
  id : Val := Val.vnone
  name : Val := Val.vnone
  state : Val := Val.vnone
  description : Val := Val.vnone
  board_kind : Val := Val.vnone
  deriving DecidableEq, Repr

/-- Monday group/list record imported as a project section. -/
structure MondaySection where
  id : Val := Val.vnone
  title : Val := Val.vnone
  archived : Val := Val.vnone
  position : Val := Val.vnone
  deriving DecidableEq, Repr

/-- Monday item record imported as a task. -/
structure MondayTask where
  id : Val := Val.vnone
  name : Val := Val.vnone
  group : Val := Val.vnone
  due_at : Val := Val.vnone
  deriving DecidableEq, Repr

/-- Monday update record imported as a comment. -/
structure MondayComment where
  created_at : Val := Val.vnone
  text_body : Val := Val.vnone
  deriving DecidableEq, Repr

/-- Record returned by the `get_projects_per_team` collaborator.
`hasEndedAt` models Python `hasattr(elt, "ended_at")`; `ended_at` models
`elt.get("ended_at")`. -/
structure NtProjectRecord where
  is_open : Val := Val.vnone
  ended_at : Val := Val.vnone
  hasEndedAt : Bool := true
  deriving DecidableEq, Repr

/-- Response of a Nozbe create-entity call: `none` is a falsy/empty result,
`some v` is a truthy created entity whose `id` field holds `v`
(`Val.vnone` when the entity lacks an `id`). -/
abbrev NtResp : Type := Option Val

/-- Python exceptions relevant to the importer.  `importException` and
`openApiError` are the two classes `run_import` catches; `valueError` and
`typeError` model built-in exceptions raised by `float()` / `isoparse`. -/
inductive PyErr : Type where
  | importException : String → PyErr
  | openApiError : String → PyErr
  | valueError : String → PyErr
  | typeError : String → PyErr
  deriving DecidableEq, Repr

instance {e a : Type} [DecidableEq e] [DecidableEq a] : DecidableEq (Except e a) := fun x y =>
  match x, y with
  | Except.ok u, Except.ok v => if h : u = v then isTrue (by rw [h]) else isFalse (by simp [h])
  | Except.ok _, Except.error _ => isFalse (by simp)
  | Except.error _, Except.ok _ => isFalse (by simp)
  | Except.error u, Except.error v => if h : u = v then isTrue (by rw [h]) else isFalse (by simp [h])

/-- Exceptions whose class is listed in the `except` clause of
`run_import` (`ImportException`, `OpenApiException`). -/
def caughtErr : PyErr → Bool
  | PyErr.importException _ => true
  | PyErr.openApiError _ => true
  | PyErr.valueError _ => false
  | PyErr.typeError _ => false

/-- Outbound Nozbe project-creation payload (`models.Project(...)` after
`strip_readonly`).  Modelled from the spec for the stripping step: the
read-only placeholder fields `id`, `author_id`, `created_at`,
`last_event_at` (filled with `id16()` / `TimestampReadOnly(1)` in the
source) are removed before submission and therefore omitted here. -/
structure ProjectModel where
  name : Val
  team_id : String
  ended_at : Option Int
  description : Val
  is_open : Bool
  extra : String
  deriving DecidableEq, Repr

/-- Outbound Nozbe project-section payload (`models.ProjectSection(...)`
after `strip_readonly`), read-only placeholder fields omitted as above. -/
structure ProjectSectionModel where
  project_id : String
  name : Val
  archived_at : Option Int
  position : Rat
  deriving DecidableEq, Repr

/-- Outbound Nozbe task payload (`models.Task(...)` after
`strip_readonly`), read-only placeholder fields omitted as above.
`due_at` holds the raw value wrapped by `models.TimestampNullable` — the
source passes the Monday value through unconverted. -/
structure TaskModel where
  name : Val
  project_id : String
  project_section_id : Option String
  project_position : Rat
  due_at : Option Val
  responsible_id : Option String
  deriving DecidableEq, Repr

/-- Outbound Nozbe comment payload (`models.Comment(...)` after
`strip_readonly`), read-only placeholder fields omitted as above. -/
structure CommentModel where
  body : Val
  task_id : String
  extra : String
  deriving DecidableEq, Repr

/-- Trace event: one client construction, collaborator call or outbound
API call issued by the pipeline, in program order. -/
inductive Call : Type where
  | mkNtClientCall : String → Call
  | mkMondayClientCall : String → Call
  | limitsCall : String → Call
  | currentMemberCall : Call
  | listProjectsCall : Call
  | getProjectsPerTeamCall : String → Call
  | checkLimitsCall : String → Nat → Call
  | postProjectCall : ProjectModel → Call
  | listSectionsCall : Val → Call
  | postSectionCall : ProjectSectionModel → Call
  | listTasksCall : Val → Call
  | postTaskCall : TaskModel → Call
  | listCommentsCall : Val → Call
  | postCommentCall : CommentModel → Call
  deriving DecidableEq, Repr

/-- Data served by the external collaborators during one run: the Monday
listings (association lists keyed by the parent's Monday id), the Nozbe
team-projects listing, the plan limits and the acting member id. -/
structure World where
  mondayProjects : List MondayProject := []
  mondaySections : List (Val × List MondaySection) := []
  mondayTasks : List (Val × List MondayTask) := []
  mondayComments : List (Val × List MondayComment) := []
  ntProjects : List NtProjectRecord := []
  limits : List (String × Int) := []
  currMember : String := "member"

/-- Mutable pipeline state: the queued responses of the four Nozbe
create-entity endpoints (consumed first-in first-out; an exhausted queue
yields a falsy response) and the call trace. -/
structure St where
  projResps : List NtResp := []
  sectResps : List NtResp := []
  taskResps : List NtResp := []
  commResps : List NtResp := []
  trace : List Call := []
  deriving DecidableEq, Repr

/-- Pipeline computation: state transformer that either returns a value or
a raised `PyErr`, in both cases with the state reached so far. -/
def M (α : Type) : Type := St → Except PyErr α × St

/-- Return a pure value. -/
def mPure {α : Type} (a : α) : M α := fun st => (Except.ok a, st)

/-- Raise a Python exception. -/
def mThrow {α : Type} (e : PyErr) : M α := fun st => (Except.error e, st)

/-- Sequencing: run `x`; on success feed its result to `f`, on a raised
exception propagate it. -/
def mBind {α β : Type} (x : M α) (f : α → M β) : M β := fun st =>
  match x st with
  | (Except.ok a, st2) => f a st2
  | (Except.error e, st2) => (Except.error e, st2)

/-- Record one call in the trace. -/
def mEmit (c : Call) : M Unit := fun st =>
  (Except.ok (), { st with trace := st.trace ++ [c] })

/-- Lift a pure fallible computation into the pipeline. -/
def mLift {α : Type} : Except PyErr α → M α
  | Except.ok a => mPure a
  | Except.error e => mThrow e

/-- Pop the next queued project-creation response (falsy when exhausted). -/
def popProjResp : M NtResp := fun st =>
  match st.projResps with
  | [] => (Except.ok none, st)
  | r :: rs => (Except.ok r, { st with projResps := rs })

/-- Pop the next queued section-creation response. -/
def popSectResp : M NtResp := fun st =>
  match st.sectResps with
  | [] => (Except.ok none, st)
  | r :: rs => (Except.ok r, { st with sectResps := rs })

/-- Pop the next queued task-creation response. -/
def popTaskResp : M NtResp := fun st =>
  match st.taskResps with
  | [] => (Except.ok none, st)
  | r :: rs => (Except.ok r, { st with taskResps := rs })

/-- Pop the next queued comment-creation response. -/
def popCommResp : M NtResp := fun st =>
  match st.commResps with
  | [] => (Except.ok none, st)
  | r :: rs => (Except.ok r, { st with commResps := rs })

/-- Value of a list of decimal digit characters, `none` if empty or not
all digits. -/
def digitsVal (cs : List Char) : Option Nat :=
  match cs with
  | [] => none
  | _ =>
    if cs.all Char.isDigit then
      some (cs.foldl (fun n c => n * 10 + (c.toNat - 48)) 0)
    else none

/-- Unsigned decimal literal `digits` or `digits.digits` as a rational. -/
def parseUnsignedFloat (cs : List Char) : Option Rat :=
  match cs.span (fun c => !(c = '.')) with
  | (ip, []) => (digitsVal ip).map (fun n => (n : Rat))
  | (ip, _ :: fp) =>
    match digitsVal ip, digitsVal fp with
    | some i, some f => some ((i : Rat) + (f : Rat) / ((10 : Rat) ^ fp.length))
    | _, _ => none

/-- Modelled from the spec: Python `float(str)` restricted to plain signed
decimal literals; anything else fails to parse (Python raises
`ValueError`). -/
def parseFloatLit (s : String) : Option Rat :=
  match s.data with
  | '-' :: rest => (parseUnsignedFloat rest).map (fun q => -q)
  | cs => parseUnsignedFloat cs

/-- Python `float(v)` on a dynamic value: numbers and booleans convert,
strings parse as decimal literals or raise `ValueError`, `None` raises
`TypeError`. -/
def pyFloat : Val → Except PyErr Rat
  | Val.vnum q => Except.ok q
  | Val.vbool b => Except.ok (if b then 1 else 0)
  | Val.vstr s =>
    match parseFloatLit s with
    | some q => Except.ok q
    | none => Except.error (PyErr.valueError ("could not convert string to float: " ++ s))
  | Val.vnone => Except.error (PyErr.typeError "float() argument must be a string or a number, not NoneType")

/-- Days between 1970-01-01 and the given civil date (Gregorian),
Hinnant's days-from-civil algorithm over `Int`. -/
def daysFromCivil (y m d : Int) : Int :=
  let y2 : Int := if m ≤ 2 then y - 1 else y
  let era : Int := (if 0 ≤ y2 then y2 else y2 - 399) / 400
  let yoe : Int := y2 - era * 400
  let mp : Int := if 2 < m then m - 3 else m + 9
  let doy : Int := (153 * mp + 2) / 5 + d - 1
  let doe : Int := yoe * 365 + yoe / 4 - yoe / 100 + doy
  era * 146097 + doe - 719468

/-- Digit character value. -/
def dv (c : Char) : Int := (c.toNat : Int) - 48

/-- Modelled from the spec: the timestamp-parsing collaborator
(`dateutil.parser.isoparse` composed with `datetime.timestamp()`),
restricted to the UTC form `YYYY-MM-DDThh:mm:ssZ`; yields whole epoch
seconds, `none` on anything else (Python raises `ValueError`). -/
def isoDateSecs (s : String) : Option Int :=
  match s.data with
  | [y1, y2, y3, y4, c1, m1, m2, c2, d1, d2, ct, h1, h2, c3, n1, n2, c4, s1, s2, cz] =>
    if ([y1, y2, y3, y4, m1, m2, d1, d2, h1, h2, n1, n2, s1, s2].all Char.isDigit
        && c1 = '-' && c2 = '-' && ct = 'T' && c3 = ':' && c4 = ':' && cz = 'Z') then
      let y : Int := dv y1 * 1000 + dv y2 * 100 + dv y3 * 10 + dv y4
      let mo : Int := dv m1 * 10 + dv m2
      let da : Int := dv d1 * 10 + dv d2
      let h : Int := dv h1 * 10 + dv h2
      let mi : Int := dv n1 * 10 + dv n2
      let se : Int := dv s1 * 10 + dv s2
      if 1 ≤ mo && mo ≤ 12 && 1 ≤ da && da ≤ 31 && h ≤ 23 && mi ≤ 59 && se ≤ 59 then
        some (daysFromCivil y mo da * 86400 + h * 3600 + mi * 60 + se)
      else none
    else none
  | _ => none

/-- Modelled from the spec: `isoparse(v).timestamp()` on a dynamic value:
a parsable ISO string yields epoch seconds, an unparsable string raises
`ValueError`, a non-string raises `TypeError`. -/
def isoparseSecs : Val → Except PyErr Int
  | Val.vstr s =>
    match isoDateSecs s with
    | some t => Except.ok t
    | none => Except.error (PyErr.valueError ("Invalid isoformat string: " ++ s))
  | Val.vnone => Except.error (PyErr.typeError "Parser must be a string or character stream, not NoneType")
  | Val.vnum _ => Except.error (PyErr.typeError "Parser must be a string or character stream, not float")
  | Val.vbool _ => Except.error (PyErr.typeError "Parser must be a string or character stream, not bool")

/-- Python-dict insertion on an association list: overwrite in place when
the key exists (keeping its slot), append otherwise. -/
def dictInsert (m : List (Val × String)) (k : Val) (v : String) : List (Val × String) :=
  match m with
  | [] => [(k, v)]
  | (k2, v2) :: rest =>
    if k2 = k then (k, v) :: rest else (k2, v2) :: dictInsert rest k v

/-- Python `dict.get` on an association list. -/
def dictGet (m : List (Val × String)) (k : Val) : Option String :=
  match m with
  | [] => none
  | (k2, v) :: rest => if k2 = k then some v else dictGet rest k

/-- Lookup of a per-category cap in the limits mapping. -/
def capLookup (limits : List (String × Int)) (cat : String) : Option Int :=
  match limits with
  | [] => none
  | (c, v) :: rest => if c = cat then some v else capLookup rest cat

/-- Lookup of a Monday listing keyed by the parent entity's Monday id;
an unknown parent yields an empty listing. -/
def assocListing {α : Type} (l : List (Val × List α)) (k : Val) : List α :=
  match l with
  | [] => []
  | (k2, xs) :: rest => if k2 = k then xs else assocListing rest k

/-- Stable insertion of `x` into `ys` by `key`: `x` goes in front of the
first element whose key is not smaller, hence in front of equal keys —
together with processing order this realises a stable sort. -/
def stableInsert {α : Type} (key : α → Int) (x : α) : List α → List α
  | [] => [x]
  | y :: ys => if key x ≤ key y then x :: y :: ys else y :: stableInsert key x ys

/-- Stable sort by an integral key (extensionally the unique stable sort,
hence the order produced by Python `sorted`). -/
def stableSortKey {α : Type} (key : α → Int) : List α → List α
  | [] => []
  | x :: xs => stableInsert key x (stableSortKey key xs)

/-- Effectful map over a list, evaluating left to right and propagating
the first raised exception (the sequencing Python uses when computing
sort keys). -/
def mapExceptList {α β : Type} (f : α → Except PyErr β) : List α → Except PyErr (List β)
  | [] => Except.ok []
  | a :: l =>
    match f a with
    | Except.error e => Except.error e
    | Except.ok b =>
      match mapExceptList f l with
      | Except.error e => Except.error e
      | Except.ok bs => Except.ok (b :: bs)

/-- Python `sorted(l, key=f)` where the key callable may raise: all keys
are evaluated first (CPython decorates before sorting), then the list is
sorted stably by key. -/
def pySortedByKey {α : Type} (f : α → Except PyErr Int) (l : List α) : Except PyErr (List α) :=
  match mapExceptList (fun a => (f a).map (fun k => (k, a))) l with
  | Except.error e => Except.error e
  | Except.ok pairs => Except.ok ((stableSortKey Prod.fst pairs).map Prod.snd)

/-- Sort key of `_import_comments`:
`isoparse(elt.get("created_at")).timestamp()`. -/
def commentSortKey (c : MondayComment) : Except PyErr Int :=
  isoparseSecs c.created_at

/-! Collaborator calls.  Each one is modelled from the spec (the helpers
live in `ntimporters.utils` / the API clients, outside `src/`): it records
a trace event and serves data from the `World` or the response queues. -/

/-- Modelled from the spec: `nt_limits(nt_client, team_id)` fetches the
destination plan limits for the team. -/
def ntLimits (w : World) (teamId : String) : M (List (String × Int)) :=
  mBind (mEmit (Call.limitsCall teamId)) (fun _ => mPure w.limits)

/-- Modelled from the spec: `current_nt_member(nt_client)` resolves the
acting member's id. -/
def currentNtMember (w : World) : M String :=
  mBind (mEmit Call.currentMemberCall) (fun _ => mPure w.currMember)

/-- Modelled from the spec: `monday_client.projects()` lists the source
boards in source order. -/
def mondayListProjects (w : World) : M (List MondayProject) :=
  mBind (mEmit Call.listProjectsCall) (fun _ => mPure w.mondayProjects)

/-- Modelled from the spec: `get_projects_per_team(nt_client, team_id)`
lists the destination team's projects. -/
def getProjectsPerTeam (w : World) (teamId : String) : M (List NtProjectRecord) :=
  mBind (mEmit (Call.getProjectsPerTeamCall teamId)) (fun _ => mPure w.ntProjects)

/-- Modelled from the spec: `check_limits(limits, category, count)` raises
`ImportException` (the QuotaExceeded condition) when the projected count
exceeds the category's cap; a category without a cap passes. -/
def checkLimits (limits : List (String × Int)) (cat : String) (count : Nat) : M Unit :=
  mBind (mEmit (Call.checkLimitsCall cat count)) (fun _ =>
    match capLookup limits cat with
    | some cap => if (count : Int) > cap then mThrow (PyErr.importException ("limit reached: " ++ cat)) else mPure ()
    | none => mPure ())

/-- Modelled from the spec: `monday_client.sections(project_id)`. -/
def mondayListSections (w : World) (pid : Val) : M (List MondaySection) :=
  mBind (mEmit (Call.listSectionsCall pid)) (fun _ => mPure (assocListing w.mondaySections pid))

/-- Modelled from the spec: `monday_client.tasks(project_id)`. -/
def mondayListTasks (w : World) (pid : Val) : M (List MondayTask) :=
  mBind (mEmit (Call.listTasksCall pid)) (fun _ => mPure (assocListing w.mondayTasks pid))

/-- Modelled from the spec: `monday_client.comments(task_id)`. -/
def mondayListComments (w : World) (tid : Val) : M (List MondayComment) :=
  mBind (mEmit (Call.listCommentsCall tid)) (fun _ => mPure (assocListing w.mondayComments tid))

/-- Modelled from the spec: `projects_api.post_project(payload)` submits a
project-creation call and yields the created entity or a falsy result. -/
def postProject (payload : ProjectModel) : M NtResp :=
  mBind (mEmit (Call.postProjectCall payload)) (fun _ => popProjResp)

/-- Modelled from the spec: `post_project_section(payload)`. -/
def postSection (payload : ProjectSectionModel) : M NtResp :=
  mBind (mEmit (Call.postSectionCall payload)) (fun _ => popSectResp)

/-- Modelled from the spec: `post_task(payload)`. -/
def postTask (payload : TaskModel) : M NtResp :=
  mBind (mEmit (Call.postTaskCall payload)) (fun _ => popTaskResp)

/-- Modelled from the spec: `post_comment(payload)`. -/
def postComment (payload : CommentModel) : M NtResp :=
  mBind (mEmit (Call.postCommentCall payload)) (fun _ => popCommResp)

/-- Field read of `nt_project.get("id")` through the `or {}` guard: a
falsy response reads as `None`, otherwise the response's id value. -/
def respId (r : NtResp) : Val :=
  match r with
  | none => Val.vnone
  | some v => v

/-! The importer itself, translated line by line from
`src/ntimporters/monday/importer.py`. -/

/-- `models.Project(...)` built by `_import_project` (lines 60-73),
read-only placeholder fields stripped. -/
def mapProject (p : MondayProject) (teamId : String) : ProjectModel :=
  { name := p.name
    team_id := teamId
    ended_at := if p.state = Val.vstr "archived" ∨ p.state = Val.vstr "deleted" then some 1 else none
    description := p.description
    is_open := decide (p.board_kind = Val.vstr "public")
    extra := "" }

/-- `models.ProjectSection(...)` built in `_import_project_sections`
(lines 129-136); evaluating `float(section.get("position") or 1.0)` may
raise, so the mapper is fallible. -/
def mapSection (s : MondaySection) (ntProjectId : String) : Except PyErr ProjectSectionModel :=
  match pyFloat (pyOr s.position (Val.vnum 1)) with
  | Except.error e => Except.error e
  | Except.ok pos =>
    Except.ok
      { project_id := ntProjectId
        name := s.title
        archived_at := if truthy s.archived then some 1 else none
        position := pos }

/-- `models.Task(...)` built in `_import_tasks` (lines 151-168): the raw
`due_at` value is wrapped unconverted when truthy, and `responsible_id`
is set to the acting member exactly in that case. -/
def mapTask (mapping : List (Val × String)) (authorId : String) (ntProjectId : String)
    (t : MondayTask) : TaskModel :=
  let dueRaw := t.due_at
  { name := t.name
    project_id := ntProjectId
    project_section_id := dictGet mapping t.group
    project_position := 1
    due_at := if truthy dueRaw then (if truthy dueRaw then some dueRaw else none) else none
    responsible_id := if truthy dueRaw then some authorId else none }

/-- `models.Comment(...)` built in `_import_comments` (lines 186-193). -/
def mapComment (c : MondayComment) (ntTaskId : String) : CommentModel :=
  { body := c.text_body
    task_id := ntTaskId
    extra := "" }

/-- Comment loop of `_import_comments` (lines 180-195): create each
comment in the sorted order, ignoring the creation result. -/
def commentsLoop (ntTaskId : String) : List MondayComment → M Unit
  | [] => mPure ()
  | c :: cs =>
    mBind (postComment (mapComment c ntTaskId)) (fun _ =>
    commentsLoop ntTaskId cs)

/-- `_import_comments` (lines 177-195): fetch the task's comments, sort
them by parsed creation timestamp (stable), then create each in order. -/
def importComments (w : World) (ntTaskId : String) (mTaskId : Val) : M Unit :=
  mBind (mondayListComments w mTaskId) (fun comments =>
  mBind (mLift (pySortedByKey commentSortKey comments)) (fun sortedComments =>
  commentsLoop ntTaskId sortedComments))

/-- Task loop of `_import_tasks` (lines 150-171): map and create each
task; on a truthy creation result recurse into its comments with
`str(nt_task.id)`, else skip to the next task. -/
def tasksLoop (w : World) (mapping : List (Val × String)) (ntProjectId : String)
    (authorId : String) : List MondayTask → M Unit
  | [] => mPure ()
  | t :: ts =>
    mBind (postTask (mapTask mapping authorId ntProjectId t)) (fun resp =>
    mBind (match resp with
           | none => mPure ()
           | some rv => importComments w (pyStr rv) t.id) (fun _ =>
    tasksLoop w mapping ntProjectId authorId ts))

/-- `_import_tasks` (lines 145-171). -/
def importTasks (w : World) (mapping : List (Val × String)) (mProjectId : Val)
    (ntProjectId : String) (authorId : String) : M Unit :=
  mBind (mondayListTasks w mProjectId) (fun tasks =>
  tasksLoop w mapping ntProjectId authorId tasks)

/-- Section loop of `_import_project_sections` (lines 125-139): map and
create each section; a truthy creation result records
`section.get("id") -> str(nt_section.get("id"))` in the mapping
(last write wins), a falsy one records nothing. -/
def sectionsLoop (ntProjectId : String) : List MondaySection → List (Val × String) → M (List (Val × String))
  | [], acc => mPure acc
  | s :: ss, acc =>
    mBind (mLift (mapSection s ntProjectId)) (fun payload =>
    mBind (postSection payload) (fun resp =>
    sectionsLoop ntProjectId ss
      (match resp with
       | none => acc
       | some rv => dictInsert acc s.id (pyStr rv))))

/-- `_import_project_sections` (lines 108-142): fetch the board's
sections, quota-check their count, build the section IdentifierMap, and
then import the board's tasks with it. -/
def importProjectSections (w : World) (ntProjectId : String) (p : MondayProject)
    (limits : List (String × Int)) (currMember : String) : M Unit :=
  mBind (mondayListSections w p.id) (fun mondaySections =>
  mBind (checkLimits limits "project_sections" mondaySections.length) (fun _ =>
  mBind (sectionsLoop ntProjectId mondaySections []) (fun mapping =>
  importTasks w mapping p.id ntProjectId currMember)))

/-- `_import_project` (lines 58-80): create the mapped project, compute
`nt_project_id := str((post result or empty dict).get("id"))`, return
early when that string is empty, otherwise import the board's subtree. -/
def importProject (w : World) (teamId : String) (currMember : String)
    (limits : List (String × Int)) (p : MondayProject) : M Unit :=
  mBind (postProject (mapProject p teamId)) (fun resp =>
    if pyStr (respId resp) = "" then mPure ()
    else importProjectSections w (pyStr (respId resp)) p limits currMember)

/-- Project loop of `_import_data` (lines 103-104), in source listing
order. -/
def projectsLoop (w : World) (teamId : String) (currMember : String)
    (limits : List (String × Int)) : List MondayProject → M Unit
  | [] => mPure ()
  | p :: ps =>
    mBind (importProject w teamId currMember limits p) (fun _ =>
    projectsLoop w teamId currMember limits ps)

/-- The open/public board ids of `_import_data` (lines 83-85):
`[elt.get("id") for elt in monday_projects if elt.get("board_kind") == "public"]`. -/
def mondayOpenIds (ps : List MondayProject) : List Val :=
  (ps.filter (fun p => decide (p.board_kind = Val.vstr "public"))).map (fun p => p.id)

/-- The destination-side open-project count of `_import_data` (lines
91-100): `sum([True for elt in nt_projects if elt.get("is_open") and
(not hasattr(elt, "ended_at") or not bool(elt.get("ended_at")))])`. -/
def ntOpenCount (ps : List NtProjectRecord) : Nat :=
  ps.countP (fun e => truthy e.is_open && (!e.hasEndedAt || !truthy e.ended_at))

/-- Body of `_import_data` after the `nt_limits` fetch (lines 56-104):
resolve the acting member, list the source boards, quota-check the
projected open-project count, then import each board in source order. -/
def importDataBody (w : World) (teamId : String) (limits : List (String × Int)) : M Unit :=
  mBind (currentNtMember w) (fun currMember =>
  mBind (mondayListProjects w) (fun mondayProjects =>
  mBind (getProjectsPerTeam w teamId) (fun ntProjects =>
  mBind (checkLimits limits "projects_open"
          ((mondayOpenIds mondayProjects).length + ntOpenCount ntProjects)) (fun _ =>
  projectsLoop w teamId currMember limits mondayProjects))))

/-- `_import_data` (lines 52-104): fetch limits, then run the body. -/
def importData (w : World) (teamId : String) : M Unit :=
  mBind (ntLimits w teamId) (fun limits => importDataBody w teamId limits)

/-- Outcome of one `run_import` call: a normal `None` return, a returned
error string, a returned caught exception, or an exception escaping the
function (which is not a return at all). -/
inductive RunOutcome : Type where
  | ok : RunOutcome
  | errMsg : String → RunOutcome
  | errExc : PyErr → RunOutcome
  | escaped : PyErr → RunOutcome
  deriving DecidableEq, Repr

/-- The `input_fields` entry of the importer's `SPEC` dictionary
(lines 19-24). -/
def SPEC_input_fields : List String := ["team_id", "nt_auth_token", "app_key"]

/-- `run_import` (lines 28-49): validate the two credentials, construct
the two clients, run `_import_data` and catch exactly
`ImportException` / `OpenApiException`. -/
def runImport (ntAuthToken appKey teamId : String) (w : World) (st : St) : RunOutcome × St :=
  if ntAuthToken = "" then (RunOutcome.errMsg "Missing \x27nt_auth_token\x27", st)
  else if appKey = "" then (RunOutcome.errMsg "Missing \x27app_key\x27", st)
  else
    let st1 : St :=
      { st with trace := st.trace ++ [Call.mkNtClientCall ntAuthToken, Call.mkMondayClientCall appKey] }
    match importData w teamId st1 with
    | (Except.ok _, st2) => (RunOutcome.ok, st2)
    | (Except.error e, st2) =>
      if caughtErr e then (RunOutcome.errExc e, st2) else (RunOutcome.escaped e, st2)

/-! Remaining definitions: predicates used by the theorems, and the
concrete worlds at which witnesses and counterexamples are evaluated. -/

/-- A pipeline computation only ever appends to the call trace. -/
def mExtending {α : Type} (x : M α) : Prop :=
  ∀ st : St, ∃ r : List Call, (x st).2.trace = st.trace ++ r

/-- A pipeline result whose raised exception, if any, is of a class
caught by `run_import`. -/
def safeRes {α : Type} (p : Except PyErr α × St) : Prop :=
  ∀ e : PyErr, p.1 = Except.error e → caughtErr e = true

/-- The section's position field survives `float(position or 1.0)`. -/
def posOk (s : MondaySection) : Prop :=
  ∃ q : Rat, pyFloat (pyOr s.position (Val.vnum 1)) = Except.ok q

/-- The comment's creation timestamp parses. -/
def tsOk (c : MondayComment) : Prop :=
  ∃ t : Int, isoparseSecs c.created_at = Except.ok t

/-- All optional source fields that the importer feeds into `float` /
`isoparse` are well-formed. -/
def worldParsable (w : World) : Prop :=
  (∀ e ∈ w.mondaySections, ∀ s ∈ e.2, posOk s) ∧
  (∀ e ∈ w.mondayComments, ∀ c ∈ e.2, tsOk c)

/-- First-some choice on options (`oget a b` is `a` unless `a` is
`none`). -/
def oget (a b : Option String) : Option String :=
  match a with
  | some v => some v
  | none => b

/-- Destination section id recorded by the LAST successful creation of a
section with source id `k`, when the sections `ss` consume the response
queue `rs` in order (an exhausted queue means every later creation is
falsy). -/
def lastSucc : List MondaySection → List NtResp → Val → Option String
  | [], _, _ => none
  | _ :: _, [], _ => none
  | s :: ss, r :: rs, k =>
    oget (lastSucc ss rs k)
      (match r with
       | none => none
       | some rv => if s.id = k then some (pyStr rv) else none)

/-- One-board world for exercising the missing-id guard (C1). -/
def c1World : World := { mondayProjects := [{ id := Val.vstr "m1" }] }

/-- State whose single queued project-creation response is a truthy
entity lacking an `id` field (C1). -/
def c1St : St := { projResps := [some Val.vnone] }

/-- State whose project-creation response queue is exhausted, so the
creation call yields a falsy/empty result (C1). -/
def c1StFalsy : St := { projResps := [] }

/-- Task carrying the spec's scenario-4 due date (C5). -/
def c5Task : MondayTask := { name := Val.vstr "T", due_at := Val.vstr "2024-01-01T00:00:00Z" }

/-- World whose single board has a section with the non-numeric position
string "top" (C6). -/
def c6World : World :=
  { mondayProjects := [{ id := Val.vstr "m1" }],
    mondaySections := [(Val.vstr "m1", [{ id := Val.vstr "s1", position := Val.vstr "top" }])] }

/-- State whose project creation succeeds with id "p1", so the section
stage is reached (C6). -/
def c6St : St := { projResps := [some (Val.vstr "p1")] }

/-- Comment with timestamp T3 listed first (C3, spec scenario 5). -/
def c3c1 : MondayComment := { created_at := Val.vstr "1970-01-01T00:00:03Z", text_body := Val.vstr "c3" }

/-- Comment with timestamp T1 listed second (C3). -/
def c3c2 : MondayComment := { created_at := Val.vstr "1970-01-01T00:00:01Z", text_body := Val.vstr "c1" }

/-- Comment with timestamp T2 listed third (C3). -/
def c3c3 : MondayComment := { created_at := Val.vstr "1970-01-01T00:00:02Z", text_body := Val.vstr "c2" }

/-- World whose single task listing carries the three comments in the
order T3, T1, T2 (C3). -/
def c3World : World := { mondayComments := [(Val.vstr "mt", [c3c1, c3c2, c3c3])] }

/-- Sections with a duplicated source id for exercising last-write-wins
in the IdentifierMap (C4). -/
def c4Sections : List MondaySection :=
  [{ id := Val.vstr "a" }, { id := Val.vstr "b" }, { id := Val.vstr "a" }]

/-- Response queue where the first and third section creations succeed
and the second returns a falsy result (C4). -/
def c4St : St := { sectResps := [some (Val.vstr "x"), none, some (Val.vstr "z")] }

/-- The (identical) payload of the three section creations of `c4Sections`
(C4). -/
def c4Payload : ProjectSectionModel :=
  { project_id := "p1", name := Val.vnone, archived_at := none, position := 1 }

/-- World with one public source board, one open destination project and
an open-projects cap of 1, so the projected count 2 exceeds the cap
(C2, spec scenario 3). -/
def c2World : World :=
  { mondayProjects := [{ id := Val.vstr "m1", board_kind := Val.vstr "public" }]
    ntProjects := [{ is_open := Val.vbool true }]
    limits := [("projects_open", 1)] }

/-! Helper lemmas about the pipeline monad. -/

theorem mPure_apply {α : Type} (a : α) (st : St) : mPure a st = (Except.ok a, st) := rfl

theorem mThrow_apply {α : Type} (e : PyErr) (st : St) : mThrow (α := α) e st = (Except.error e, st) := rfl

theorem mEmit_apply (c : Call) (st : St) :
    mEmit c st = (Except.ok (), { st with trace := st.trace ++ [c] }) := rfl

theorem mBind_ok {α β : Type} {x : M α} {f : α → M β} {st st2 : St} {a : α}
    (h : x st = (Except.ok a, st2)) : mBind x f st = f a st2 := by
  simp [mBind, h]

theorem mBind_err {α β : Type} {x : M α} {f : α → M β} {st st2 : St} {e : PyErr}
    (h : x st = (Except.error e, st2)) : mBind x f st = (Except.error e, st2) := by
  simp [mBind, h]

/-! Trace monotonicity: every pipeline computation only appends to the
call trace. -/

theorem extends_mPure {α : Type} (a : α) : mExtending (mPure a) := by
  intro st
  exact ⟨[], by simp [mPure]⟩

theorem extends_mThrow {α : Type} (e : PyErr) : mExtending (mThrow (α := α) e) := by
  intro st
  exact ⟨[], by simp [mThrow]⟩

theorem extends_mEmit (c : Call) : mExtending (mEmit c) := by
  intro st
  exact ⟨[c], by simp [mEmit]⟩

theorem extends_mLift {α : Type} (x : Except PyErr α) : mExtending (mLift x) := by
  cases x with
  | ok a => exact extends_mPure a
  | error e => exact extends_mThrow e

theorem extends_popProjResp : mExtending popProjResp := by
  intro st
  refine ⟨[], ?_⟩
  cases h : st.projResps <;> simp [popProjResp, h]

theorem extends_popSectResp : mExtending popSectResp := by
  intro st
  refine ⟨[], ?_⟩
  cases h : st.sectResps <;> simp [popSectResp, h]

theorem extends_popTaskResp : mExtending popTaskResp := by
  intro st
  refine ⟨[], ?_⟩
  cases h : st.taskResps <;> simp [popTaskResp, h]

theorem extends_popCommResp : mExtending popCommResp := by
  intro st
  refine ⟨[], ?_⟩
  cases h : st.commResps <;> simp [popCommResp, h]

theorem extends_mBind {α β : Type} {x : M α} {f : α → M β}
    (hx : mExtending x) (hf : ∀ a, mExtending (f a)) : mExtending (mBind x f) := by
  intro st
  obtain ⟨r1, h1⟩ := hx st
  cases hx2 : x st with
  | mk res st2 =>
    rw [hx2] at h1
    simp at h1
    cases res with
    | ok a =>
      obtain ⟨r2, h2⟩ := hf a st2
      refine ⟨r1 ++ r2, ?_⟩
      rw [mBind_ok hx2, h2, h1, List.append_assoc]
    | error e =>
      refine ⟨r1, ?_⟩
      rw [mBind_err hx2]
      simpa using h1

theorem extends_ntLimits (w : World) (teamId : String) : mExtending (ntLimits w teamId) :=
  extends_mBind (extends_mEmit _) (fun _ => extends_mPure _)

theorem extends_currentNtMember (w : World) : mExtending (currentNtMember w) :=
  extends_mBind (extends_mEmit _) (fun _ => extends_mPure _)

theorem extends_mondayListProjects (w : World) : mExtending (mondayListProjects w) :=
  extends_mBind (extends_mEmit _) (fun _ => extends_mPure _)

theorem extends_getProjectsPerTeam (w : World) (teamId : String) :
    mExtending (getProjectsPerTeam w teamId) :=
  extends_mBind (extends_mEmit _) (fun _ => extends_mPure _)

theorem extends_mondayListSections (w : World) (pid : Val) : mExtending (mondayListSections w pid) :=
  extends_mBind (extends_mEmit _) (fun _ => extends_mPure _)

theorem extends_mondayListTasks (w : World) (pid : Val) : mExtending (mondayListTasks w pid) :=
  extends_mBind (extends_mEmit _) (fun _ => extends_mPure _)

theorem extends_mondayListComments (w : World) (tid : Val) : mExtending (mondayListComments w tid) :=
  extends_mBind (extends_mEmit _) (fun _ => extends_mPure _)

theorem extends_postProject (payload : ProjectModel) : mExtending (postProject payload) :=
  extends_mBind (extends_mEmit _) (fun _ => extends_popProjResp)

theorem extends_postSection (payload : ProjectSectionModel) : mExtending (postSection payload) :=
  extends_mBind (extends_mEmit _) (fun _ => extends_popSectResp)

theorem extends_postTask (payload : TaskModel) : mExtending (postTask payload) :=
  extends_mBind (extends_mEmit _) (fun _ => extends_popTaskResp)

theorem extends_postComment (payload : CommentModel) : mExtending (postComment payload) :=
  extends_mBind (extends_mEmit _) (fun _ => extends_popCommResp)

theorem extends_checkLimits (limits : List (String × Int)) (cat : String) (count : Nat) :
    mExtending (checkLimits limits cat count) := by
  apply extends_mBind (extends_mEmit _)
  intro a
  cases h : capLookup limits cat with
  | none =>
    simp only [checkLimits, h]
    exact extends_mPure _
  | some cap =>
    simp only [checkLimits, h]
    split
    · exact extends_mThrow _
    · exact extends_mPure _

theorem extends_commentsLoop (n : String) : ∀ cs : List MondayComment, mExtending (commentsLoop n cs)
  | [] => extends_mPure ()
  | _ :: cs => extends_mBind (extends_postComment _) (fun _ => extends_commentsLoop n cs)

theorem extends_importComments (w : World) (n : String) (tid : Val) :
    mExtending (importComments w n tid) :=
  extends_mBind (extends_mondayListComments w tid) (fun _ =>
    extends_mBind (extends_mLift _) (fun sorted => extends_commentsLoop n sorted))

theorem extends_tasksLoop (w : World) (mapping : List (Val × String)) (p a : String) :
    ∀ ts : List MondayTask, mExtending (tasksLoop w mapping p a ts)
  | [] => extends_mPure ()
  | t :: ts =>
    extends_mBind (extends_postTask _) (fun resp =>
      extends_mBind
        (by
          cases resp with
          | none => exact extends_mPure ()
          | some rv => exact extends_importComments w (pyStr rv) t.id)
        (fun _ => extends_tasksLoop w mapping p a ts))

theorem extends_importTasks (w : World) (mapping : List (Val × String)) (mpid : Val) (p a : String) :
    mExtending (importTasks w mapping mpid p a) :=
  extends_mBind (extends_mondayListTasks w mpid) (fun tasks =>
    extends_tasksLoop w mapping p a tasks)

theorem extends_sectionsLoop (p : String) :
    ∀ (ss : List MondaySection) (acc : List (Val × String)), mExtending (sectionsLoop p ss acc)
  | [], acc => extends_mPure acc
  | _ :: ss, _ =>
    extends_mBind (extends_mLift _) (fun _ =>
      extends_mBind (extends_postSection _) (fun _ => extends_sectionsLoop p ss _))

theorem extends_importProjectSections (w : World) (p : String) (proj : MondayProject)
    (limits : List (String × Int)) (cm : String) :
    mExtending (importProjectSections w p proj limits cm) :=
  extends_mBind (extends_mondayListSections w proj.id) (fun ss =>
    extends_mBind (extends_checkLimits limits "project_sections" ss.length) (fun _ =>
      extends_mBind (extends_sectionsLoop p ss []) (fun mapping =>
        extends_importTasks w mapping proj.id p cm)))

theorem extends_importProject (w : World) (teamId cm : String) (limits : List (String × Int))
    (p : MondayProject) : mExtending (importProject w teamId cm limits p) := by
  apply extends_mBind (extends_postProject _)
  intro resp
  split
  · exact extends_mPure ()
  · exact extends_importProjectSections w _ p limits cm

theorem extends_projectsLoop (w : World) (teamId cm : String) (limits : List (String × Int)) :
    ∀ ps : List MondayProject, mExtending (projectsLoop w teamId cm limits ps)
  | [] => extends_mPure ()
  | p :: ps =>
    extends_mBind (extends_importProject w teamId cm limits p) (fun _ =>
      extends_projectsLoop w teamId cm limits ps)

theorem extends_importDataBody (w : World) (teamId : String) (limits : List (String × Int)) :
    mExtending (importDataBody w teamId limits) :=
  extends_mBind (extends_currentNtMember w) (fun _ =>
    extends_mBind (extends_mondayListProjects w) (fun mps =>
      extends_mBind (extends_getProjectsPerTeam w teamId) (fun _ =>
        extends_mBind (extends_checkLimits limits "projects_open" _) (fun _ =>
          extends_projectsLoop w teamId _ limits mps))))

/-! ### Claim C1 (code bug)

The spec says a project whose creation call returns no identifier has its
subtree import skipped.  The code computes
`nt_project_id := str(nt_project.get("id"))`; when the creation result is
falsy or lacks an `id`, `str(None) = "None"` is truthy, so the guard
`if not nt_project_id: return` does not fire and the subtree is imported
under the bogus project id `"None"`. -/

/-- C1: when the project-creation call returns an entity without an `id`
(first half) or a falsy result (second half), `_import_data` still issues
the section listing, the section quota check and the task listing for
that board — the subtree import is NOT skipped, because
`str(None) = "None"` defeats the guard. -/
theorem project_create_without_id_imports_subtree :
    ((importData c1World "t1" c1St).1 = Except.ok () ∧
      (importData c1World "t1" c1St).2.trace =
        [Call.limitsCall "t1", Call.currentMemberCall, Call.listProjectsCall,
         Call.getProjectsPerTeamCall "t1", Call.checkLimitsCall "projects_open" 0,
         Call.postProjectCall
           { name := Val.vnone, team_id := "t1", ended_at := none,
             description := Val.vnone, is_open := false, extra := "" },
         Call.listSectionsCall (Val.vstr "m1"),
         Call.checkLimitsCall "project_sections" 0,
         Call.listTasksCall (Val.vstr "m1")]) ∧
    (importData c1World "t1" c1StFalsy).2.trace =
        [Call.limitsCall "t1", Call.currentMemberCall, Call.listProjectsCall,
         Call.getProjectsPerTeamCall "t1", Call.checkLimitsCall "projects_open" 0,
         Call.postProjectCall
           { name := Val.vnone, team_id := "t1", ended_at := none,
             description := Val.vnone, is_open := false, extra := "" },
         Call.listSectionsCall (Val.vstr "m1"),
         Call.checkLimitsCall "project_sections" 0,
         Call.listTasksCall (Val.vstr "m1")] := by
  refine ⟨⟨?_, ?_⟩, ?_⟩ <;>
    simp [importData, importDataBody, ntLimits, currentNtMember, mondayListProjects, getProjectsPerTeam,
      checkLimits, capLookup, mBind, mEmit, mPure, mThrow, projectsLoop, importProject,
      postProject, popProjResp, mapProject, mondayOpenIds, ntOpenCount, c1World, c1St,
      c1StFalsy, respId, pyStr, importProjectSections, mondayListSections, assocListing,
      sectionsLoop, importTasks, mondayListTasks, tasksLoop, mLift]

/-! ### Claim C2: the open-projects quota guard runs before any
project-creation call, with the projected count computed from the public
source boards and the open destination projects. -/

/-- C2: under the coherence assumption that the destination project
records expose their `ended_at` attribute, when the open-projects
category has a cap and the projected count exceeds it, `_import_data`
aborts with the QuotaExceeded `ImportException`; its trace ends at the
`check_limits` call carrying exactly (public source boards) + (open,
end-timestamp-free destination projects), and contains no
project-creation call beyond those already in the initial trace.  The
last two conjuncts identify the code's two count expressions with the
claim's characterizations. -/
theorem projects_open_quota_guard (w : World) (teamId : String) (st : St) (cap : Int)
    (hattr : ∀ e ∈ w.ntProjects, e.hasEndedAt = true)
    (hcap : capLookup w.limits "projects_open" = some cap)
    (hover : cap < (((mondayOpenIds w.mondayProjects).length + ntOpenCount w.ntProjects : Nat) : Int)) :
    (importData w teamId st).1 =
      Except.error (PyErr.importException "limit reached: projects_open") ∧
    (importData w teamId st).2.trace =
      st.trace ++ [Call.limitsCall teamId, Call.currentMemberCall, Call.listProjectsCall,
        Call.getProjectsPerTeamCall teamId,
        Call.checkLimitsCall "projects_open"
          ((mondayOpenIds w.mondayProjects).length + ntOpenCount w.ntProjects)] ∧
    (∀ pm : ProjectModel, Call.postProjectCall pm ∈ (importData w teamId st).2.trace →
      Call.postProjectCall pm ∈ st.trace) ∧
    (mondayOpenIds w.mondayProjects).length =
      w.mondayProjects.countP (fun p => decide (p.board_kind = Val.vstr "public")) ∧
    ntOpenCount w.ntProjects =
      w.ntProjects.countP (fun e => truthy e.is_open && !truthy e.ended_at) := by
  have hrun : importData w teamId st =
      (Except.error (PyErr.importException "limit reached: projects_open"),
       { st with trace := st.trace ++ [Call.limitsCall teamId, Call.currentMemberCall,
         Call.listProjectsCall, Call.getProjectsPerTeamCall teamId,
         Call.checkLimitsCall "projects_open"
           ((mondayOpenIds w.mondayProjects).length + ntOpenCount w.ntProjects)] }) := by
    have hover2 : cap < ((mondayOpenIds w.mondayProjects).length : Int)
        + (ntOpenCount w.ntProjects : Int) := by
      push_cast at hover
      exact hover
    simp [importData, importDataBody, ntLimits, currentNtMember, mondayListProjects,
      getProjectsPerTeam, checkLimits, mBind, mEmit, mPure, mThrow, hcap, gt_iff_lt, hover2]
  refine ⟨by rw [hrun], by rw [hrun], ?_, ?_, ?_⟩
  · intro pm hm
    rw [hrun] at hm
    simp at hm
    simpa using hm
  · simp [mondayOpenIds, List.countP_eq_length_filter]
  · unfold ntOpenCount
    apply List.countP_congr
    intro e he
    simp [hattr e he]

/-- Witness for C2 at the scenario-3 world: projected count 2 against
cap 1 aborts before any creation call. -/
theorem projects_open_quota_guard_inst :
    (importData c2World "t1" {}).1 =
      Except.error (PyErr.importException "limit reached: projects_open") ∧
    Call.checkLimitsCall "projects_open" 2 ∈ (importData c2World "t1" {}).2.trace := by
  have h := projects_open_quota_guard c2World "t1" {} 1 (by decide) rfl (by decide)
  refine ⟨h.1, ?_⟩
  have ht := h.2.1
  rw [ht]
  simp [c2World, mondayOpenIds, ntOpenCount, truthy]

/-! ### Claim C5 (code bug)

The spec says a present source due value is converted to a millisecond
epoch timestamp.  The code wraps the raw Monday value in
`models.TimestampNullable` without any conversion (the in-file helper
`_parse_timestamp`, which would do the conversion, is never called on the
task path). -/

/-- C5: the mapped payload's `due_at` is the raw ISO string, while the
conversion demanded by the spec would yield epoch second 1704067200
(millisecond 1704067200000); the payload does not carry that number. -/
theorem task_due_at_not_converted :
    (mapTask [] "member1" "p1" c5Task).due_at = some (Val.vstr "2024-01-01T00:00:00Z") ∧
    isoparseSecs (Val.vstr "2024-01-01T00:00:00Z") = Except.ok 1704067200 ∧
    ¬ (mapTask [] "member1" "p1" c5Task).due_at = some (Val.vnum 1704067200000) :=
  ⟨rfl, rfl, by decide⟩

/-! ### Claim C7: `responsible_id` is the acting member exactly when the
task has a (truthy) due value. -/

/-- C7: the mapped task payload's `responsible_id` equals the acting
member's id when the source due value is truthy, and is null when it is
not — regardless of the acting member being available. -/
theorem responsible_id_iff_due (mapping : List (Val × String)) (author pid : String)
    (t : MondayTask) :
    (truthy t.due_at = true → (mapTask mapping author pid t).responsible_id = some author) ∧
    (truthy t.due_at = false → (mapTask mapping author pid t).responsible_id = none) := by
  constructor <;> intro h <;> simp [mapTask, h]

/-- Witness for C7 at a task with a due date and a task without one. -/
theorem responsible_id_iff_due_inst :
    (mapTask [] "m1" "p1" { due_at := Val.vstr "2024-01-01T00:00:00Z" }).responsible_id = some "m1" ∧
    (mapTask [] "m1" "p1" { name := Val.vstr "N" }).responsible_id = none :=
  ⟨(responsible_id_iff_due [] "m1" "p1" _).1 (by decide),
   (responsible_id_iff_due [] "m1" "p1" _).2 (by decide)⟩

/-! ### Claim C8: empty credentials are rejected before any client is
constructed or any call is made. -/

/-- C8: an empty `nt_auth_token` (destination auth token) yields the
missing-token error and an empty `app_key` (source app key) yields the
missing-key error, in both cases with the state — response queues and the
call trace, hence client constructions and network calls — untouched. -/
theorem missing_credentials_fail_fast (token key teamId : String) (w : World) (st : St) :
    (token = "" →
      runImport token key teamId w st = (RunOutcome.errMsg "Missing \x27nt_auth_token\x27", st)) ∧
    (¬ token = "" → key = "" →
      runImport token key teamId w st = (RunOutcome.errMsg "Missing \x27app_key\x27", st)) := by
  constructor
  · intro h
    simp [runImport, h]
  · intro h1 h2
    simp [runImport, h1, h2]

/-- Witness for C8 at the spec's scenario-1 credentials. -/
theorem missing_credentials_fail_fast_inst :
    runImport "" "k" "t1" {} {} = (RunOutcome.errMsg "Missing \x27nt_auth_token\x27", {}) ∧
    runImport "t" "" "t1" {} {} = (RunOutcome.errMsg "Missing \x27app_key\x27", {}) :=
  ⟨(missing_credentials_fail_fast "" "k" "t1" {} {}).1 rfl,
   (missing_credentials_fail_fast "t" "" "t1" {} {}).2 (by decide) rfl⟩

/-! ### Claim C9: section position parsing with default, archived
sentinel. -/

/-- C9: the mapped section payload's `position` is the source position
parsed as a float, defaulting to 1.0 when the source value is absent or
falsy, and `archived_at` is the sentinel timestamp exactly when the
source archived flag is truthy. -/
theorem section_position_and_archived (s : MondaySection) (pid : String) (q : Rat) :
    (truthy s.position = false →
      mapSection s pid = Except.ok
        { project_id := pid, name := s.title,
          archived_at := if truthy s.archived then some 1 else none, position := 1 }) ∧
    (truthy s.position = true → pyFloat s.position = Except.ok q →
      mapSection s pid = Except.ok
        { project_id := pid, name := s.title,
          archived_at := if truthy s.archived then some 1 else none, position := q }) := by
  constructor
  · intro h
    simp [mapSection, pyOr, h, pyFloat]
  · intro h hq
    simp [mapSection, pyOr, h, hq]

/-- Witness for C9 at an archived section without a position and at a
section with numeric position 3. -/
theorem section_position_and_archived_inst :
    mapSection { id := Val.vstr "a", archived := Val.vbool true } "p1" = Except.ok
      { project_id := "p1", name := Val.vnone, archived_at := some 1, position := 1 } ∧
    mapSection { id := Val.vstr "b", position := Val.vnum 3 } "p1" = Except.ok
      { project_id := "p1", name := Val.vnone, archived_at := none, position := 3 } :=
  ⟨by
    have h := (section_position_and_archived { id := Val.vstr "a", archived := Val.vbool true } "p1" 1).1 (by decide)
    simpa using h,
   by
    have h := (section_position_and_archived { id := Val.vstr "b", position := Val.vnum 3 } "p1" 3).2
      (by norm_num [truthy]) rfl
    simpa using h⟩

/-! ### Claim C3: comments are submitted in non-decreasing parsed
timestamp order, by a stable sort.  Supporting lemmas: membership,
sortedness and the filter-stability of `stableSortKey`; the
decorate/undecorate round trip; the comment loop's submission trace. -/

theorem mem_stableInsert {α : Type} (key : α → Int) (x z : α) (l : List α) :
    z ∈ stableInsert key x l ↔ z = x ∨ z ∈ l := by
  induction l with
  | nil => simp [stableInsert]
  | cons y ys ih =>
    by_cases h : key x ≤ key y <;> simp [stableInsert, h, ih]
    tauto

theorem decorate_map_snd {α : Type} (f : α → Except PyErr Int) :
    ∀ (l : List α) (pairs : List (Int × α)),
      mapExceptList (fun a => (f a).map (fun k => (k, a))) l = Except.ok pairs →
      pairs.map Prod.snd = l
  | [], pairs => by
    intro h
    simp [mapExceptList] at h
    simp [← h]
  | a :: l, pairs => by
    intro h
    rw [mapExceptList] at h
    cases hfa : f a with
    | error e =>
      rw [hfa] at h
      simp [Except.map] at h
    | ok ka =>
      rw [hfa] at h
      rw [show Except.map (fun k => (k, a)) (Except.ok ka) = Except.ok (ka, a) from rfl] at h
      cases hrest : mapExceptList (fun a => (f a).map (fun k => (k, a))) l with
      | error e =>
        rw [hrest] at h
        simp at h
      | ok rest =>
        rw [hrest] at h
        simp at h
        simp [← h, decorate_map_snd f l rest hrest]

theorem commentsLoop_run (n : String) :
    ∀ (cs : List MondayComment) (st : St),
      (commentsLoop n cs st).1 = Except.ok () ∧
      (commentsLoop n cs st).2.trace =
        st.trace ++ cs.map (fun c => Call.postCommentCall (mapComment c n))
  | [], st => by
    simp [commentsLoop, mPure]
  | c :: cs, st => by
    cases hq : st.commResps with
    | nil =>
      have := commentsLoop_run n cs
        { st with trace := st.trace ++ [Call.postCommentCall (mapComment c n)] }
      simp [commentsLoop, mBind, postComment, mEmit, popCommResp, hq] at this ⊢
      simp [this]
    | cons r rs =>
      have := commentsLoop_run n cs
        { st with trace := st.trace ++ [Call.postCommentCall (mapComment c n)], commResps := rs }
      simp [commentsLoop, mBind, postComment, mEmit, popCommResp, hq] at this ⊢
      simp [this]

end MondayImporter
namespace MondayImporter

theorem pairwise_stableInsert {α : Type} (key : α → Int) (x : α) (l : List α)
    (h : l.Pairwise (fun a b => key a ≤ key b)) :
    (stableInsert key x l).Pairwise (fun a b => key a ≤ key b) := by
  induction l with
  | nil => simp [stableInsert]
  | cons y ys ih =>
    rcases List.pairwise_cons.mp h with ⟨hy, hys⟩
    by_cases hxy : key x ≤ key y
    · rw [stableInsert, if_pos hxy]
      refine List.pairwise_cons.mpr ⟨?_, h⟩
      intro z hz
      rcases List.mem_cons.mp hz with rfl | hz
      · exact hxy
      · exact le_trans hxy (hy z hz)
    · rw [stableInsert, if_neg hxy]
      refine List.pairwise_cons.mpr ⟨?_, ih hys⟩
      intro z hz
      rcases (mem_stableInsert key x z ys).mp hz with rfl | hz
      · exact le_of_not_le hxy
      · exact hy z hz

theorem pairwise_stableSortKey {α : Type} (key : α → Int) (l : List α) :
    (stableSortKey key l).Pairwise (fun a b => key a ≤ key b) := by
  induction l with
  | nil => simp [stableSortKey]
  | cons x xs ih => exact pairwise_stableInsert key x _ ih

theorem filter_stableInsert_eq {α : Type} (key : α → Int) (x : α) (l : List α) (k : Int)
    (hx : key x = k) :
    (stableInsert key x l).filter (fun a => decide (key a = k)) =
      x :: l.filter (fun a => decide (key a = k)) := by
  induction l with
  | nil => simp [stableInsert, hx]
  | cons y ys ih =>
    by_cases hxy : key x ≤ key y
    · rw [stableInsert, if_pos hxy]
      simp [hx]
    · have hyk : ¬ key y = k := by
        have := lt_of_not_le hxy
        omega
      simp [stableInsert, hxy, hyk, ih]

theorem filter_stableInsert_ne {α : Type} (key : α → Int) (x : α) (l : List α) (k : Int)
    (hx : ¬ key x = k) :
    (stableInsert key x l).filter (fun a => decide (key a = k)) =
      l.filter (fun a => decide (key a = k)) := by
  induction l with
  | nil => simp [stableInsert, hx]
  | cons y ys ih =>
    by_cases hxy : key x ≤ key y
    · rw [stableInsert, if_pos hxy]
      simp [hx]
    · rw [stableInsert, if_neg hxy]
      simp [List.filter_cons, ih]

theorem filter_stableSortKey {α : Type} (key : α → Int) (l : List α) (k : Int) :
    (stableSortKey key l).filter (fun a => decide (key a = k)) =
      l.filter (fun a => decide (key a = k)) := by
  induction l with
  | nil => rfl
  | cons x xs ih =>
    by_cases hx : key x = k
    · rw [stableSortKey, filter_stableInsert_eq key x _ k hx, ih]
      simp [hx]
    · rw [stableSortKey, filter_stableInsert_ne key x _ k hx, ih]
      simp [hx]

/-- C3: when every comment's creation timestamp parses (so that the
decoration of the task's comment listing with parsed keys yields
`pairs`), `_import_comments` succeeds and submits exactly the stably
sorted sequence to the destination: its trace appends one creation call
per comment in sorted order, the sorted pair sequence is non-decreasing
in parsed timestamp, and filtering any single timestamp value preserves
the original source order (stability). -/
theorem comments_sorted_stable (w : World) (ntTaskId : String) (mTaskId : Val) (st : St)
    (pairs : List (Int × MondayComment))
    (hp : mapExceptList (fun c => (commentSortKey c).map (fun k => (k, c)))
        (assocListing w.mondayComments mTaskId) = Except.ok pairs) :
    pairs.map Prod.snd = assocListing w.mondayComments mTaskId ∧
    (importComments w ntTaskId mTaskId st).1 = Except.ok () ∧
    (importComments w ntTaskId mTaskId st).2.trace =
      st.trace ++ [Call.listCommentsCall mTaskId]
        ++ ((stableSortKey Prod.fst pairs).map Prod.snd).map
            (fun c => Call.postCommentCall (mapComment c ntTaskId)) ∧
    List.Pairwise (fun p q => p.1 ≤ q.1) (stableSortKey Prod.fst pairs) ∧
    (∀ k : Int, (stableSortKey Prod.fst pairs).filter (fun p => decide (p.1 = k)) =
      pairs.filter (fun p => decide (p.1 = k))) := by
  have hIC : importComments w ntTaskId mTaskId st =
      commentsLoop ntTaskId ((stableSortKey Prod.fst pairs).map Prod.snd)
        { st with trace := st.trace ++ [Call.listCommentsCall mTaskId] } := by
    simp [importComments, mondayListComments, mBind, mEmit, mPure, pySortedByKey, hp, mLift]
  have hrun := commentsLoop_run ntTaskId ((stableSortKey Prod.fst pairs).map Prod.snd)
    { st with trace := st.trace ++ [Call.listCommentsCall mTaskId] }
  refine ⟨decorate_map_snd commentSortKey _ pairs hp, ?_, ?_,
    pairwise_stableSortKey Prod.fst pairs, fun k => filter_stableSortKey Prod.fst pairs k⟩
  · rw [hIC]
    exact hrun.1
  · rw [hIC]
    rw [hrun.2]

/-- Witness for C3 at the spec's scenario 5: comments listed in order
T3, T1, T2 are submitted in order T1, T2, T3. -/
theorem comments_sorted_stable_inst :
    (importComments c3World "nt1" (Val.vstr "mt") {}).2.trace =
      [Call.listCommentsCall (Val.vstr "mt"),
       Call.postCommentCall (mapComment c3c2 "nt1"),
       Call.postCommentCall (mapComment c3c3 "nt1"),
       Call.postCommentCall (mapComment c3c1 "nt1")] := by
  have h := comments_sorted_stable c3World "nt1" (Val.vstr "mt") {}
    [(3, c3c1), (1, c3c2), (2, c3c3)] (by rfl)
  rw [h.2.2.1]
  norm_num [stableSortKey, stableInsert]

/-! ### Claim C4: IdentifierMap contents and task section lookup.
Supporting lemmas about the association-list dictionary and the section
loop, then the claim theorem. -/

theorem oget_assoc (a b c : Option String) : oget (oget a b) c = oget a (oget b c) := by
  cases a <;> rfl

theorem oget_none_right (a : Option String) : oget a none = a := by
  cases a <;> rfl

theorem lastSucc_nil_resps (ss : List MondaySection) (k : Val) : lastSucc ss [] k = none := by
  cases ss <;> rfl

theorem dictGet_dictInsert (m : List (Val × String)) (k : Val) (v : String) (k2 : Val) :
    dictGet (dictInsert m k v) k2 = if k = k2 then some v else dictGet m k2 := by
  induction m with
  | nil => simp [dictInsert, dictGet]
  | cons p rest ih =>
    obtain ⟨k3, v3⟩ := p
    by_cases h3 : k3 = k
    · subst h3
      by_cases h4 : k3 = k2 <;> simp [dictInsert, dictGet, h4]
    · by_cases h4 : k3 = k2
      · subst h4
        have : ¬ k = k3 := fun h => h3 h.symm
        simp [dictInsert, dictGet, h3, this]
      · simp [dictInsert, dictGet, h3, h4, ih]

theorem sectionsLoop_dictGet (p : String) :
    ∀ (ss : List MondaySection) (acc : List (Val × String)) (st : St)
      (m : List (Val × String)) (st2 : St),
      sectionsLoop p ss acc st = (Except.ok m, st2) →
      ∀ k : Val, dictGet m k = oget (lastSucc ss st.sectResps k) (dictGet acc k)
  | [], acc, st, m, st2 => by
    intro h k
    simp [sectionsLoop, mPure] at h
    rw [← h.1]
    simp [lastSucc, oget]
  | s :: ss, acc, st, m, st2 => by
    intro h k
    cases hms : mapSection s p with
    | error e =>
      simp [sectionsLoop, hms, mLift, mThrow, mBind] at h
    | ok payload =>
      cases hq : st.sectResps with
      | nil =>
        simp [sectionsLoop, hms, mLift, mPure, mBind, postSection, mEmit, popSectResp, hq] at h
        have := sectionsLoop_dictGet p ss acc _ m st2 h k
        simpa [hq, lastSucc, lastSucc_nil_resps] using this
      | cons r rs =>
        cases r with
        | none =>
          simp [sectionsLoop, hms, mLift, mPure, mBind, postSection, mEmit, popSectResp, hq] at h
          have := sectionsLoop_dictGet p ss acc _ m st2 h k
          simp [hq, lastSucc, oget_assoc] at this ⊢
          simpa [oget] using this
        | some rv =>
          simp [sectionsLoop, hms, mLift, mPure, mBind, postSection, mEmit, popSectResp, hq] at h
          have := sectionsLoop_dictGet p ss (dictInsert acc s.id (pyStr rv)) _ m st2 h k
          rw [this]
          simp [hq, lastSucc, oget_assoc, dictGet_dictInsert]
          by_cases hk : s.id = k <;> simp [hk, oget]

end MondayImporter
namespace MondayImporter

theorem keys_dictInsert (m : List (Val × String)) (k : Val) (v : String) :
    (dictInsert m k v).map Prod.fst =
      if k ∈ m.map Prod.fst then m.map Prod.fst else m.map Prod.fst ++ [k] := by
  induction m with
  | nil => simp [dictInsert]
  | cons p rest ih =>
    obtain ⟨k3, v3⟩ := p
    by_cases h3 : k3 = k
    · subst h3
      simp [dictInsert]
    · have h4 : ¬ k = k3 := fun h => h3 h.symm
      by_cases h5 : k ∈ rest.map Prod.fst <;>
        simp [dictInsert, h3, h4, h5, ih]

theorem nodup_keys_dictInsert (m : List (Val × String)) (k : Val) (v : String)
    (h : (m.map Prod.fst).Nodup) : ((dictInsert m k v).map Prod.fst).Nodup := by
  rw [keys_dictInsert]
  split
  · exact h
  · next hni =>
    simp [List.nodup_append, h]
    intro x hx
    exact hni (List.mem_map_of_mem Prod.fst hx)

theorem sectionsLoop_nodup (p : String) :
    ∀ (ss : List MondaySection) (acc : List (Val × String)) (st : St)
      (m : List (Val × String)) (st2 : St),
      sectionsLoop p ss acc st = (Except.ok m, st2) →
      (acc.map Prod.fst).Nodup → (m.map Prod.fst).Nodup
  | [], acc, st, m, st2 => by
    intro h hacc
    simp [sectionsLoop, mPure] at h
    rw [← h.1]
    exact hacc
  | s :: ss, acc, st, m, st2 => by
    intro h hacc
    cases hms : mapSection s p with
    | error e =>
      simp [sectionsLoop, hms, mLift, mThrow, mBind] at h
    | ok payload =>
      cases hq : st.sectResps with
      | nil =>
        simp [sectionsLoop, hms, mLift, mPure, mBind, postSection, mEmit, popSectResp, hq] at h
        exact sectionsLoop_nodup p ss acc _ m st2 h hacc
      | cons r rs =>
        cases r with
        | none =>
          simp [sectionsLoop, hms, mLift, mPure, mBind, postSection, mEmit, popSectResp, hq] at h
          exact sectionsLoop_nodup p ss acc _ m st2 h hacc
        | some rv =>
          simp [sectionsLoop, hms, mLift, mPure, mBind, postSection, mEmit, popSectResp, hq] at h
          exact sectionsLoop_nodup p ss _ _ m st2 h (nodup_keys_dictInsert acc s.id (pyStr rv) hacc)

/-- C4: when the section stage of a board completes normally, the
resulting IdentifierMap maps every source section id to the destination
id recorded by the LAST successful creation with that source id (and to
nothing when every creation with that id was falsy), holds at most one
entry per distinct source id, and every task mapped with it gets
`project_section_id` equal to the map lookup of the task's group id
(`none` when absent). -/
theorem sections_identifier_map (p : String) (ss : List MondaySection) (st st2 : St)
    (m : List (Val × String))
    (h : sectionsLoop p ss [] st = (Except.ok m, st2)) :
    (∀ k : Val, dictGet m k = lastSucc ss st.sectResps k) ∧
    (m.map Prod.fst).Nodup ∧
    (∀ (t : MondayTask) (author : String),
      (mapTask m author p t).project_section_id = dictGet m t.group) := by
  refine ⟨?_, sectionsLoop_nodup p ss [] st m st2 h (by simp), fun t author => rfl⟩
  intro k
  have := sectionsLoop_dictGet p ss [] st m st2 h k
  simpa [dictGet, oget_none_right] using this
/-- Witness for C4 at the spec's scenario-2-like run: three sections with
ids a, b, a; creations return x, falsy, z — the map holds exactly
a ↦ z. -/
theorem sections_identifier_map_inst :
    dictGet [(Val.vstr "a", "z")] (Val.vstr "a") = lastSucc c4Sections c4St.sectResps (Val.vstr "a") ∧
    dictGet [(Val.vstr "a", "z")] (Val.vstr "b") = lastSucc c4Sections c4St.sectResps (Val.vstr "b") ∧
    ([(Val.vstr "a", "z")].map Prod.fst).Nodup ∧
    lastSucc c4Sections c4St.sectResps (Val.vstr "a") = some "z" ∧
    lastSucc c4Sections c4St.sectResps (Val.vstr "b") = none := by
  have h := sections_identifier_map "p1" c4Sections c4St
    { sectResps := [],
      trace := [Call.postSectionCall c4Payload, Call.postSectionCall c4Payload,
                Call.postSectionCall c4Payload] }
    [(Val.vstr "a", "z")]
    (by
      simp [c4Sections, c4St, c4Payload, sectionsLoop, mapSection, pyFloat, pyOr, truthy,
        mLift, mPure, mThrow, mBind, postSection, mEmit, popSectResp, dictInsert, pyStr])
  exact ⟨h.1 _, h.1 _, h.2.1, rfl, rfl⟩

/-! ### Claim C6 (corrected)

The claim says `run_import` never lets an exception escape, even for
malformed optional source fields.  In fact `run_import` catches only
`ImportException` and `OpenApiException`; the `ValueError` raised by
`float()` on a non-numeric section position (or by `isoparse` on an
unparsable comment timestamp) escapes the entry point.  The
counterexample exhibits the escape; the amended claim, proved below,
restricts the guarantee to worlds whose positions and timestamps are
well-formed.  Supporting lemmas: exception-class safety of each pipeline
layer. -/

theorem safe_mPure {α : Type} (a : α) (st : St) : safeRes (mPure a st) := by
  intro e h
  simp [mPure] at h

theorem safe_mEmit (c : Call) (st : St) : safeRes (mEmit c st) := by
  intro e h
  simp [mEmit] at h

theorem safe_popProjResp (st : St) : safeRes (popProjResp st) := by
  intro e h
  cases hq : st.projResps <;> simp [popProjResp, hq] at h

theorem safe_popSectResp (st : St) : safeRes (popSectResp st) := by
  intro e h
  cases hq : st.sectResps <;> simp [popSectResp, hq] at h

theorem safe_popTaskResp (st : St) : safeRes (popTaskResp st) := by
  intro e h
  cases hq : st.taskResps <;> simp [popTaskResp, hq] at h

theorem safe_popCommResp (st : St) : safeRes (popCommResp st) := by
  intro e h
  cases hq : st.commResps <;> simp [popCommResp, hq] at h

theorem safe_mBind {α β : Type} {x : M α} {f : α → M β} {st : St}
    (hx : safeRes (x st)) (hf : ∀ a st2, safeRes (f a st2)) : safeRes (mBind x f st) := by
  intro e h
  cases hx2 : x st with
  | mk res st2 =>
    cases res with
    | ok a =>
      rw [mBind_ok hx2] at h
      exact hf a st2 e h
    | error e2 =>
      rw [mBind_err hx2] at h
      simp at h
      exact h ▸ hx e2 (by rw [hx2])

theorem safe_checkLimits (limits : List (String × Int)) (cat : String) (count : Nat) (st : St) :
    safeRes (checkLimits limits cat count st) := by
  apply safe_mBind (safe_mEmit _ st)
  intro a st2
  cases hcl : capLookup limits cat with
  | none =>
    simp only [hcl]
    exact safe_mPure _ _
  | some cap =>
    simp only [hcl]
    split
    · intro e h
      simp [mThrow] at h
      simp [← h, caughtErr]
    · exact safe_mPure _ _

theorem safe_postProject (payload : ProjectModel) (st : St) : safeRes (postProject payload st) :=
  safe_mBind (safe_mEmit _ st) (fun _ st2 => safe_popProjResp st2)

theorem safe_postSection (payload : ProjectSectionModel) (st : St) : safeRes (postSection payload st) :=
  safe_mBind (safe_mEmit _ st) (fun _ st2 => safe_popSectResp st2)

theorem safe_postTask (payload : TaskModel) (st : St) : safeRes (postTask payload st) :=
  safe_mBind (safe_mEmit _ st) (fun _ st2 => safe_popTaskResp st2)

theorem mem_assocListing {α : Type} (l : List (Val × List α)) (k : Val) (x : α)
    (hx : x ∈ assocListing l k) : ∃ e ∈ l, x ∈ e.2 := by
  induction l with
  | nil => simp [assocListing] at hx
  | cons p rest ih =>
    obtain ⟨k2, xs⟩ := p
    rw [assocListing] at hx
    by_cases h : k2 = k
    · rw [if_pos h] at hx
      exact ⟨(k2, xs), List.mem_cons_self _ _, hx⟩
    · rw [if_neg h] at hx
      obtain ⟨e, he, hxe⟩ := ih hx
      exact ⟨e, List.mem_cons_of_mem _ he, hxe⟩

theorem mapExceptList_decorate_ok {α : Type} (f : α → Except PyErr Int) :
    ∀ l : List α, (∀ a ∈ l, ∃ t, f a = Except.ok t) →
      ∃ pairs, mapExceptList (fun a => (f a).map (fun k => (k, a))) l = Except.ok pairs
  | [] => fun _ => ⟨[], rfl⟩
  | a :: l => fun h => by
    obtain ⟨ta, hta⟩ := h a (List.mem_cons_self a l)
    obtain ⟨rest, hrest⟩ :=
      mapExceptList_decorate_ok f l (fun b hb => h b (List.mem_cons_of_mem a hb))
    refine ⟨(ta, a) :: rest, ?_⟩
    rw [mapExceptList, hta,
      show Except.map (fun k => (k, a)) (Except.ok ta) = Except.ok (ta, a) from rfl, hrest]

theorem safe_importComments (w : World) (n : String) (tid : Val)
    (hc : ∀ e ∈ w.mondayComments, ∀ c ∈ e.2, tsOk c) (st : St) :
    safeRes (importComments w n tid st) := by
  have hall : ∀ c ∈ assocListing w.mondayComments tid, ∃ t, commentSortKey c = Except.ok t := by
    intro c hcm
    obtain ⟨e, he, hce⟩ := mem_assocListing _ tid c hcm
    exact hc e he c hce
  obtain ⟨pairs, hp⟩ := mapExceptList_decorate_ok commentSortKey _ hall
  intro e h
  have hIC : importComments w n tid st =
      commentsLoop n ((stableSortKey Prod.fst pairs).map Prod.snd)
        { st with trace := st.trace ++ [Call.listCommentsCall tid] } := by
    simp [importComments, mondayListComments, mBind, mEmit, mPure, pySortedByKey, hp, mLift]
  rw [hIC, (commentsLoop_run n _ _).1] at h
  simp at h

theorem safe_tasksLoop (w : World) (mapping : List (Val × String)) (p a : String)
    (hc : ∀ e ∈ w.mondayComments, ∀ c ∈ e.2, tsOk c) :
    ∀ (ts : List MondayTask) (st : St), safeRes (tasksLoop w mapping p a ts st)
  | [], st => safe_mPure _ _
  | t :: ts, st => by
    simp only [tasksLoop]
    apply safe_mBind (safe_postTask _ st)
    intro resp st2
    apply safe_mBind
    · cases resp with
      | none => exact safe_mPure _ _
      | some rv => exact safe_importComments w (pyStr rv) t.id hc st2
    · intro b st3
      exact safe_tasksLoop w mapping p a hc ts st3

theorem safe_importTasks (w : World) (mapping : List (Val × String)) (mpid : Val) (p a : String)
    (hc : ∀ e ∈ w.mondayComments, ∀ c ∈ e.2, tsOk c) (st : St) :
    safeRes (importTasks w mapping mpid p a st) := by
  simp only [importTasks]
  apply safe_mBind (safe_mBind (safe_mEmit _ st) (fun _ st2 => safe_mPure _ st2))
  intro ts st2
  exact safe_tasksLoop w mapping p a hc ts st2

theorem safe_sectionsLoop (p : String)
    (w : World) (hc : ∀ e ∈ w.mondayComments, ∀ c ∈ e.2, tsOk c) :
    ∀ (ss : List MondaySection), (∀ s ∈ ss, posOk s) →
      ∀ (acc : List (Val × String)) (st : St), safeRes (sectionsLoop p ss acc st)
  | [], _, acc, st => safe_mPure _ _
  | s :: ss, hs, acc, st => by
    simp only [sectionsLoop]
    obtain ⟨q, hq⟩ := hs s (List.mem_cons_self s ss)
    have hms : mapSection s p = Except.ok
        { project_id := p, name := s.title,
          archived_at := if truthy s.archived then some 1 else none, position := q } := by
      simp [mapSection, hq]
    apply safe_mBind
    · intro e h
      rw [hms] at h
      simp [mLift, mPure] at h
    · intro payload st2
      apply safe_mBind (safe_postSection _ st2)
      intro resp st3
      exact safe_sectionsLoop p w hc ss (fun s2 hs2 => hs s2 (List.mem_cons_of_mem s hs2)) _ st3

theorem safe_importProjectSections (w : World) (p : String) (proj : MondayProject)
    (limits : List (String × Int)) (cm : String) (hw : worldParsable w) (st : St) :
    safeRes (importProjectSections w p proj limits cm st) := by
  have hls : mondayListSections w proj.id st =
      (Except.ok (assocListing w.mondaySections proj.id),
       { st with trace := st.trace ++ [Call.listSectionsCall proj.id] }) := by
    simp [mondayListSections, mBind, mEmit, mPure]
  have hs : ∀ s ∈ assocListing w.mondaySections proj.id, posOk s := by
    intro s hsm
    obtain ⟨e, he, hse⟩ := mem_assocListing _ proj.id s hsm
    exact hw.1 e he s hse
  intro e h
  simp only [importProjectSections] at h
  rw [mBind_ok hls] at h
  revert h
  apply safe_mBind (safe_checkLimits limits "project_sections" _ _)
  intro b st2
  apply safe_mBind (safe_sectionsLoop p w hw.2 _ hs [] st2)
  intro mapping st3
  exact safe_importTasks w mapping proj.id p cm hw.2 st3

theorem safe_importProject (w : World) (teamId cm : String) (limits : List (String × Int))
    (p : MondayProject) (hw : worldParsable w) (st : St) :
    safeRes (importProject w teamId cm limits p st) := by
  simp only [importProject]
  apply safe_mBind (safe_postProject _ st)
  intro resp st2
  split
  · exact safe_mPure _ _
  · exact safe_importProjectSections w _ p limits cm hw st2

theorem safe_projectsLoop (w : World) (teamId cm : String) (limits : List (String × Int))
    (hw : worldParsable w) :
    ∀ (ps : List MondayProject) (st : St), safeRes (projectsLoop w teamId cm limits ps st)
  | [], st => safe_mPure _ _
  | p :: ps, st => by
    simp only [projectsLoop]
    apply safe_mBind (safe_importProject w teamId cm limits p hw st)
    intro b st2
    exact safe_projectsLoop w teamId cm limits hw ps st2

theorem safe_importData (w : World) (teamId : String) (hw : worldParsable w) (st : St) :
    safeRes (importData w teamId st) := by
  simp only [importData, importDataBody]
  apply safe_mBind (safe_mBind (safe_mEmit _ st) (fun _ st2 => safe_mPure _ st2))
  intro limits st1
  apply safe_mBind (safe_mBind (safe_mEmit _ st1) (fun _ st2 => safe_mPure _ st2))
  intro cm st2
  apply safe_mBind (safe_mBind (safe_mEmit _ st2) (fun _ st3 => safe_mPure _ st3))
  intro mps st3
  apply safe_mBind (safe_mBind (safe_mEmit _ st3) (fun _ st4 => safe_mPure _ st4))
  intro nps st4
  apply safe_mBind (safe_checkLimits limits "projects_open" _ st4)
  intro b st5
  exact safe_projectsLoop w teamId cm limits hw mps st5

/-- Counterexample to C6 as stated: a section position "top" makes the
pipeline raise `ValueError`, which `run_import` does not catch — the
exception escapes instead of being returned. -/
theorem run_import_exception_escapes :
    (runImport "t" "k" "tm" c6World c6St).1 =
      RunOutcome.escaped (PyErr.valueError "could not convert string to float: top") := by
  have hv : parseFloatLit "top" = none := by decide
  simp [runImport, importData, importDataBody, ntLimits, currentNtMember, mondayListProjects,
    getProjectsPerTeam, checkLimits, capLookup, mBind, mEmit, mPure, mThrow, projectsLoop,
    importProject, postProject, popProjResp, mapProject, mondayOpenIds, ntOpenCount, c6World,
    c6St, respId, pyStr, importProjectSections, mondayListSections, assocListing, sectionsLoop,
    mapSection, pyFloat, pyOr, truthy, hv, mLift, caughtErr]

/-- C6 (amended): when every section position is numeric-or-falsy and
every comment timestamp parses, `run_import` never lets an exception
escape — it returns null, an error message or a caught exception. -/
theorem run_import_no_escape (token key teamId : String) (w : World) (st : St)
    (hw : worldParsable w) :
    ∀ e : PyErr, ¬ (runImport token key teamId w st).1 = RunOutcome.escaped e := by
  intro e
  by_cases ht : token = ""
  · simp [runImport, ht]
  by_cases hk : key = ""
  · simp [runImport, ht, hk]
  simp only [runImport, if_neg ht, if_neg hk]
  cases h2 : importData w teamId
    { st with trace := st.trace ++ [Call.mkNtClientCall token, Call.mkMondayClientCall key] } with
  | mk res st2 =>
    cases res with
    | ok a => simp
    | error e2 =>
      have hc : caughtErr e2 = true :=
        safe_importData w teamId hw _ e2 (by rw [h2])
      simp [hc]

/-- Witness for the amended C6 at a well-formed (empty) world. -/
theorem run_import_no_escape_inst :
    ¬ (runImport "t" "k" "tm" {} {}).1 =
      RunOutcome.escaped (PyErr.valueError "boom") :=
  run_import_no_escape "t" "k" "tm" {} {} ⟨by simp, by simp⟩ _

/-! ### Claim C10: an empty `team_id` passes input validation even though
`team_id` is listed among the importer's required input fields; the
pipeline then constructs both clients and issues network calls with the
empty team id. -/

/-- C10: with non-empty credentials and an empty `team_id`, `run_import`
returns no validation error message at all, `team_id` is nonetheless in
`SPEC["input_fields"]`, and the run's trace shows both client
constructions followed by the `nt_limits` network call made with the
empty team id. -/
theorem empty_team_id_not_rejected (token key : String) (w : World) (st : St)
    (ht : ¬ token = "") (hk : ¬ key = "") :
    "team_id" ∈ SPEC_input_fields ∧
    (∀ s, ¬ (runImport token key "" w st).1 = RunOutcome.errMsg s) ∧
    (∃ r, (runImport token key "" w st).2.trace =
      st.trace ++ [Call.mkNtClientCall token, Call.mkMondayClientCall key, Call.limitsCall ""] ++ r) := by
  refine ⟨by simp [SPEC_input_fields], ?_, ?_⟩
  · intro s
    simp only [runImport, if_neg ht, if_neg hk]
    split
    · simp
    · split <;> simp
  · simp only [runImport, if_neg ht, if_neg hk]
    have hstep : importData w ""
        { st with trace := st.trace ++ [Call.mkNtClientCall token, Call.mkMondayClientCall key] } =
        importDataBody w "" w.limits
          { st with trace := st.trace ++ [Call.mkNtClientCall token, Call.mkMondayClientCall key]
              ++ [Call.limitsCall ""] } := by
      simp [importData, ntLimits, mBind, mEmit, mPure]
    obtain ⟨r, hr⟩ := extends_importDataBody w "" w.limits
      { st with trace := st.trace ++ [Call.mkNtClientCall token, Call.mkMondayClientCall key]
          ++ [Call.limitsCall ""] }
    refine ⟨r, ?_⟩
    rw [hstep]
    cases h2 : importDataBody w "" w.limits
      { st with trace := st.trace ++ [Call.mkNtClientCall token, Call.mkMondayClientCall key]
          ++ [Call.limitsCall ""] } with
    | mk res st2 =>
      rw [h2] at hr
      simp at hr
      split <;> (try split) <;> simp_all [List.append_assoc]

/-- Witness for C10: concrete non-empty credentials with an empty team
id — no validation error, and the limits call is issued with team id "". -/
theorem empty_team_id_not_rejected_inst :
    "team_id" ∈ SPEC_input_fields ∧
    ¬ (runImport "t" "k" "" {} {}).1 = RunOutcome.errMsg "Missing \x27team_id\x27" ∧
    Call.limitsCall "" ∈ (runImport "t" "k" "" {} {}).2.trace := by
  have h := empty_team_id_not_rejected "t" "k" {} {} (by decide) (by decide)
  refine ⟨h.1, h.2.1 _, ?_⟩
  obtain ⟨r, hr⟩ := h.2.2
  rw [hr]
  simp

end MondayImporter
